import Mathlib

/-!
Verification of the adaptive flow-control / throttling engine of the
nodejs-streams-examples repository (`src/backend/controllers/throttle.js`).

The JavaScript code is shallowly embedded: wall-clock readings (`Date.now()`)
become explicit integer parameters, JS floating-point arithmetic on delays and
rates is modelled with exact rationals (`ℚ`), byte counters are integers, and
the event-driven queue processing becomes an explicit step function on a state
record.  Numeric option values are `Option ℤ` (`none` models a missing or NaN
field); the JS `x || d` defaulting treats `0` and `none` as falsy.
-/

namespace Throttle

/-- The `LIMITS` constants of throttle.js (lines 8–19). -/
def MAX_BYTES_PER_SECOND : ℤ := 10 * 1024 * 1024

/-- Minimum bytes per second (`LIMITS.MIN_BYTES_PER_SECOND`). -/
def MIN_BYTES_PER_SECOND : ℤ := 1

/-- Maximum chunk size (`LIMITS.MAX_CHUNK_SIZE`, 1 MB).  Declared in the
source but never read by any function in the file. -/
def MAX_CHUNK_SIZE : ℤ := 1024 * 1024

/-- Maximum queue size (`LIMITS.MAX_QUEUE_SIZE`).  Declared in the source but
never read by any function in the file. -/
def MAX_QUEUE_SIZE : ℤ := 100

/-- Maximum delay between chunks in ms (`LIMITS.MAX_DELAY`). -/
def MAX_DELAY : ℤ := 60000

/-- JS numeric defaulting `x || d`: a missing/NaN field (`none`) and `0` are
falsy and give the default `d`; any other number is returned unchanged. -/
def jsOr (x : Option ℤ) (d : ℤ) : ℤ :=
match x with
| none => d
| some v => if v = 0 then d else v

/-- The numeric option fields read by the `ThrottleStream` constructor.
`smoothing` is already the boolean value of `options.smoothing !== false`. -/
structure ThrottleOptions where
  bytesPerSecond : Option ℤ
  chunkDelay : Option ℤ
  burstSize : Option ℤ
  smoothing : Bool

/-- The mutable fields of a `ThrottleStream` instance that the delay
computation and the drain loop read or write (throttle.js lines 37–52). -/
structure ThrottleState where
  bytesPerSecond : ℤ
  chunkDelay : ℤ
  burstSize : ℤ
  smoothing : Bool
  bytesWritten : ℤ
  startTime : ℤ
  lastChunkTime : ℤ
  burstBytesUsed : ℤ
deriving DecidableEq

/-- The `ThrottleStream` constructor (lines 34–61): clamps `bytesPerSecond`
into `[MIN_BYTES_PER_SECOND, MAX_BYTES_PER_SECOND]` (after `|| 1024`
defaulting), clamps `chunkDelay` into `[0, MAX_DELAY]` (after `|| 0`),
floors `burstSize` at `0`, and zeroes the tracking counters.  `now` is the
`Date.now()` reading at construction time. -/
def mkThrottleStream (o : ThrottleOptions) (now : ℤ) : ThrottleState :=
{ bytesPerSecond :=
    max MIN_BYTES_PER_SECOND (min MAX_BYTES_PER_SECOND (jsOr o.bytesPerSecond 1024))
  chunkDelay := max 0 (min MAX_DELAY (jsOr o.chunkDelay 0))
  burstSize := max 0 (jsOr o.burstSize 0)
  smoothing := o.smoothing
  bytesWritten := 0
  startTime := now
  lastChunkTime := now
  burstBytesUsed := 0 }

/-- `ThrottleStream._calculateDelay` (lines 116–146).  Returns the computed
delay in ms together with the updated state (the burst branch mutates
`burstBytesUsed`).  `chunkSize` is the size of the dequeued chunk and `now`
the `Date.now()` reading at the head of the call. -/
def calculateDelay (s : ThrottleState) (chunkSize : ℤ) (now : ℤ) : ℚ × ThrottleState :=
let elapsed : ℤ := now - s.startTime
if s.chunkDelay > 0 then
  (max 0 ((s.chunkDelay : ℚ) - ((now - s.lastChunkTime : ℤ) : ℚ)), s)
else if s.burstSize > 0 ∧ s.burstBytesUsed < s.burstSize ∧
    chunkSize ≤ s.burstSize - s.burstBytesUsed then
  (0, { s with burstBytesUsed := s.burstBytesUsed + chunkSize })
else if elapsed = 0 then
  (0, s)
else
  let expectedBytes : ℚ := ((elapsed : ℚ) / 1000) * (s.bytesPerSecond : ℚ)
  let excessBytes : ℚ := (s.bytesWritten : ℚ) + (chunkSize : ℚ) - expectedBytes
  if excessBytes ≤ 0 then (0, s)
  else
    let delayMs : ℚ := excessBytes / (s.bytesPerSecond : ℚ) * 1000
    (if s.smoothing then min delayMs 1000 else delayMs, s)

/-- One iteration of the `_processQueue` drain loop (lines 90–105) as it acts
on the throttle state: compute the delay for the dequeued chunk (updating the
burst accounting), then add the chunk size to `bytesWritten` and set
`lastChunkTime` to the `Date.now()` reading taken after the sleep.  A call is
`(size, now, releaseTime)`: the chunk size, the clock at `_calculateDelay`,
and the clock after the delay. -/
def drainStep (s : ThrottleState) (c : ℕ × ℤ × ℤ) : ThrottleState :=
let s1 := (calculateDelay s (c.1 : ℤ) c.2.1).2
{ s1 with bytesWritten := s1.bytesWritten + (c.1 : ℤ), lastChunkTime := c.2.2 }

/-- The chunk-admission effect of `ThrottleStream._transform` (lines 70–81) on
the queue and the running totals: the chunk is appended unconditionally — the
source performs no size or queue-depth check and has no error path.  Chunks
are identified by a tag `ℕ` with their byte size. -/
structure TransformState where
  queue : List (ℕ × ℕ)
  totalBytes : ℕ
  totalChunks : ℕ
deriving DecidableEq

/-- `_transform` admits the chunk: append to the queue, bump the stats. -/
def transformStep (s : TransformState) (chunk : ℕ) (size : ℕ) : TransformState :=
{ queue := s.queue ++ [(chunk, size)]
  totalBytes := s.totalBytes + size
  totalChunks := s.totalChunks + 1 }

/-- A channel event: `_transform` appending a chunk to `this.queue`
(line 76), or one iteration of `_processQueue` shifting the head chunk off
the queue and pushing it downstream (lines 91–104).  The `processing` flag
serializes the drain loop, so releases are atomic single steps.  Chunks are
tagged with `ℕ`. -/
inductive ChanEvent
| enqueue (c : ℕ)
| release
deriving DecidableEq

/-- The queue, the chunks pushed downstream so far, and (as history) every
chunk ever enqueued, in arrival order. -/
structure ChannelState where
  queue : List ℕ
  released : List ℕ
  enqueued : List ℕ
deriving DecidableEq

/-- A fresh channel: everything empty. -/
def chanInit : ChannelState := ⟨[], [], []⟩

/-- One event of the channel: `enqueue c` is `this.queue.push(...)` in
`_transform`; `release` is `this.queue.shift()` followed by
`this.push(item.chunk)` in `_processQueue` (a no-op when the queue is empty,
as the drain loop then exits). -/
def chanStep (s : ChannelState) (e : ChanEvent) : ChannelState :=
match e with
| ChanEvent.enqueue c =>
  { queue := s.queue ++ [c], released := s.released, enqueued := s.enqueued ++ [c] }
| ChanEvent.release =>
  match s.queue with
  | [] => s
  | c :: rest => { queue := rest, released := s.released ++ [c], enqueued := s.enqueued }

/-- The `RateLimiter` instance fields (throttle.js lines 188–195) together
with its configuration.  Timestamps are integer `Date.now()` readings. -/
structure RLState where
  requestsPerSecond : ℕ
  windowSize : ℤ
  burstLimit : ℕ
  requests : List ℤ
  burstUsed : ℕ
deriving DecidableEq

/-- A fresh `RateLimiter` with the given configuration. -/
def mkRateLimiter (rps : ℕ) (window : ℤ) (burst : ℕ) : RLState :=
⟨rps, window, burst, [], 0⟩

/-- `RateLimiter.isAllowed` (lines 201–221): purge timestamps with
`now − t ≥ windowSize`, then accept through the burst branch (consuming one
credit and pushing `now`), else accept when the purged list is shorter than
`requestsPerSecond` (pushing `now`), else reject. -/
def isAllowed (s : RLState) (now : ℤ) : Bool × RLState :=
let reqs := s.requests.filter (fun t => now - t < s.windowSize)
if 0 < s.burstLimit ∧ s.burstUsed < s.burstLimit then
  (true, { s with requests := reqs ++ [now], burstUsed := s.burstUsed + 1 })
else if reqs.length < s.requestsPerSecond then
  (true, { s with requests := reqs ++ [now] })
else
  (false, { s with requests := reqs })

/-- `Math.min(...list)` for a nonempty integer list (the empty case is never
reached in `getTimeUntilNext`, which returns early on an empty list). -/
def jsMinList : List ℤ → ℤ
| [] => 0
| t :: ts => ts.foldl min t

/-- `RateLimiter.getTimeUntilNext` (lines 227–234): `0` when no timestamps
are stored, else `max 0 (oldest + windowSize − now)`. -/
def getTimeUntilNext (s : RLState) (now : ℤ) : ℤ :=
if s.requests = [] then 0
else max 0 (jsMinList s.requests + s.windowSize - now)

/-- Run a sequence of `isAllowed` calls at the given times, counting accepts
and rejects: returns `(accepts, rejects, final state)`. -/
def runCalls (s : RLState) : List ℤ → ℕ × ℕ × RLState
| [] => (0, 0, s)
| now :: rest =>
  let r := isAllowed s now
  let tail := runCalls r.2 rest
  if r.1 then (tail.1 + 1, tail.2.1, tail.2.2) else (tail.1, tail.2.1 + 1, tail.2.2)

/-- The state transition of one `isAllowed` call (decision discarded). -/
def rlStep (s : RLState) (now : ℤ) : RLState :=
(isAllowed s now).2

/-- The configuration of the `adaptiveThrottle` control loop
(throttle.js lines 423–473): base rate, adaptation factor, high-load
threshold.  All are rationals since the source parses them from the query and
mixes them into float arithmetic. -/
structure AdaptCfg where
  base : ℚ
  factor : ℚ
  loadThreshold : ℚ
deriving DecidableEq

/-- One tick of the `adaptInterval` callback (lines 441–473): a sampled load
above `loadThreshold` sets `max 100 (current * (1 − factor))`; a load below
`0.3` sets `min (base * 2) (current * (1 + factor))`; otherwise the rate is
unchanged. -/
def adaptTick (c : AdaptCfg) (current : ℚ) (load : ℚ) : ℚ :=
if load > c.loadThreshold then max 100 (current * (1 - c.factor))
else if load < 3/10 then min (c.base * 2) (current * (1 + c.factor))
else current

/-- The rate after a sequence of sampled loads, starting from the base rate
(`currentBytesPerSecond` is initialised to `parseInt(baseBytesPerSecond)`). -/
def adaptRun (c : AdaptCfg) (loads : List ℚ) : ℚ :=
loads.foldl (adaptTick c) c.base

/-- The per-chunk delay exactly as the specification's three-step rule words
it: fixed-cadence mode when `chunkDelay > 0`; else delay `0` when burst
allowance remains (`burstConsumed < burstAllowance`) and the chunk fits in the
remaining burst; else the rate computation
`excess = bytesReleased + chunkSize − elapsed/1000 * targetRate`, with delay
`0` when `excess ≤ 0`, otherwise `excess / targetRate * 1000`, clamped to
`1000` when smoothing is on.  (No special case for `elapsed = 0`.) -/
def specDelay (s : ThrottleState) (chunkSize : ℤ) (now : ℤ) : ℚ :=
if s.chunkDelay > 0 then
  max 0 ((s.chunkDelay : ℚ) - ((now - s.lastChunkTime : ℤ) : ℚ))
else if s.burstBytesUsed < s.burstSize ∧ chunkSize ≤ s.burstSize - s.burstBytesUsed then
  0
else
  let expectedBytes : ℚ := (((now - s.startTime : ℤ) : ℚ) / 1000) * (s.bytesPerSecond : ℚ)
  let excessBytes : ℚ := (s.bytesWritten : ℚ) + (chunkSize : ℚ) - expectedBytes
  if excessBytes ≤ 0 then 0
  else
    let delayMs : ℚ := excessBytes / (s.bytesPerSecond : ℚ) * 1000
    if s.smoothing then min delayMs 1000 else delayMs

/-- The specification's delay rule amended with the guard the source has at
line 136: when no time has elapsed since the channel started
(`elapsed = 0`), the rate branch returns delay `0` instead of running the
budget computation. -/
def specDelayAmended (s : ThrottleState) (chunkSize : ℤ) (now : ℤ) : ℚ :=
if s.chunkDelay > 0 then
  max 0 ((s.chunkDelay : ℚ) - ((now - s.lastChunkTime : ℤ) : ℚ))
else if s.burstBytesUsed < s.burstSize ∧ chunkSize ≤ s.burstSize - s.burstBytesUsed then
  0
else if now - s.startTime = 0 then
  0
else
  let expectedBytes : ℚ := (((now - s.startTime : ℤ) : ℚ) / 1000) * (s.bytesPerSecond : ℚ)
  let excessBytes : ℚ := (s.bytesWritten : ℚ) + (chunkSize : ℚ) - expectedBytes
  if excessBytes ≤ 0 then 0
  else
    let delayMs : ℚ := excessBytes / (s.bytesPerSecond : ℚ) * 1000
    if s.smoothing then min delayMs 1000 else delayMs

theorem chanStep_append_inv (s : ChannelState) (e : ChanEvent)
    (h : s.released ++ s.queue = s.enqueued) :
    (chanStep s e).released ++ (chanStep s e).queue = (chanStep s e).enqueued := by
  cases e with
  | enqueue c =>
    simp only [chanStep]
    rw [← List.append_assoc, h]
  | release =>
    cases hq : s.queue with
    | nil => simpa [chanStep, hq] using h
    | cons c rest =>
      simp only [chanStep, hq]
      rw [List.append_assoc]
      simpa [hq] using h

theorem chanFold_append_inv (events : List ChanEvent) (s : ChannelState)
    (h : s.released ++ s.queue = s.enqueued) :
    (events.foldl chanStep s).released ++ (events.foldl chanStep s).queue
      = (events.foldl chanStep s).enqueued := by
  induction events generalizing s with
  | nil => simpa using h
  | cons e rest ih => exact ih (chanStep s e) (chanStep_append_inv s e h)

/-- C1: for every interleaving of enqueue events (`_transform` pushing onto
`this.queue`) and release steps (one iteration of the `_processQueue` drain
loop, serialized by the `processing` flag so each release is a single atomic
step), the chunks released downstream followed by the chunks still queued
equal the full enqueue history in order; in particular the release order is a
prefix of — hence equals — the enqueue order.  The delay computation does not
touch the queue, so this holds in the fixed-chunkDelay mode and the
rate-based mode alike. -/
theorem C1_fifo_order (events : List ChanEvent) :
    (events.foldl chanStep chanInit).released ++ (events.foldl chanStep chanInit).queue
      = (events.foldl chanStep chanInit).enqueued ∧
    (events.foldl chanStep chanInit).released <+: (events.foldl chanStep chanInit).enqueued := by
  have h := chanFold_append_inv events chanInit (by simp [chanInit])
  exact ⟨h, ⟨(events.foldl chanStep chanInit).queue, h⟩⟩

/-- C7 counterexample: the source clamps `bytesPerSecond` to
`LIMITS.MAX_BYTES_PER_SECOND = 10 * 1024 * 1024 = 10485760`, not to
`10_000_000`: a configured rate of `10_200_000` is kept verbatim, exceeding
the bound `10_000_000` the claim states. -/
theorem C7_counterexample :
    (mkThrottleStream ⟨some 10200000, none, none, true⟩ 0).bytesPerSecond = 10200000 ∧
    ¬ (mkThrottleStream ⟨some 10200000, none, none, true⟩ 0).bytesPerSecond ≤ 10000000 := by
  constructor
  · rfl
  · decide

/-- C7 (amended): construction is a total function and silently clamps:
`bytesPerSecond` always lands in `[1, 10485760]` (i.e. `[MIN_BYTES_PER_SECOND,
MAX_BYTES_PER_SECOND]` with `MAX = 10 MiB/s`, not `10_000_000`) and
`chunkDelay` in `[0, 60000]`, for every option record. -/
theorem C7_constructor_clamped (o : ThrottleOptions) (now : ℤ) :
    1 ≤ (mkThrottleStream o now).bytesPerSecond ∧
    (mkThrottleStream o now).bytesPerSecond ≤ 10485760 ∧
    0 ≤ (mkThrottleStream o now).chunkDelay ∧
    (mkThrottleStream o now).chunkDelay ≤ 60000 := by
  refine ⟨le_max_left _ _, ?_, le_max_left _ _, ?_⟩
  · exact max_le (by norm_num [MIN_BYTES_PER_SECOND])
      ((min_le_left _ _).trans (by norm_num [MAX_BYTES_PER_SECOND]))
  · exact max_le (by norm_num) ((min_le_left _ _).trans (by norm_num [MAX_DELAY]))

/-- C8: `_transform` performs no size check at all — a single chunk of
2097152 bytes (2 MiB, twice `LIMITS.MAX_CHUNK_SIZE`) is admitted to the queue
and counted in the stats, and no error of any kind is signalled (the model of
`_transform` has no error outcome because the source has no error path). -/
theorem C8_oversized_chunk_admitted :
    MAX_CHUNK_SIZE < 2097152 ∧
    transformStep ⟨[], 0, 0⟩ 0 2097152
      = ⟨[(0, 2097152)], 2097152, 1⟩ := by
  exact ⟨by decide, rfl⟩

/-- C3 counterexample: with `requestsPerSecond = 5`, `windowSize = 1000`,
`burstLimit = 2`, ten `isAllowed` calls at the same instant do NOT yield
7 accepts and 3 rejects: burst-admitted events are pushed into the window
list too, so the run accepts only 5. -/
theorem C3_counterexample :
    ¬ ((runCalls (mkRateLimiter 5 1000 2) (List.replicate 10 0)).1 = 7 ∧
       (runCalls (mkRateLimiter 5 1000 2) (List.replicate 10 0)).2.1 = 3) := by
  decide

/-- C3 (amended): with `requestsPerSecond = 5`, `windowSize = 1000`,
`burstLimit = 2`, ten `isAllowed` calls with no elapsed time between them
yield exactly 5 accepts and 5 rejects (the two burst admissions also occupy
window slots, so the total is `max(5, 2) = 5`, not `5 + 2`). -/
theorem C3_ten_calls_counts :
    (runCalls (mkRateLimiter 5 1000 2) (List.replicate 10 0)).1 = 5 ∧
    (runCalls (mkRateLimiter 5 1000 2) (List.replicate 10 0)).2.1 = 5 := by
  decide

theorem rlStep_inv (s : RLState) (now : ℤ)
    (h1 : s.requests.length ≤ s.requestsPerSecond + s.burstUsed)
    (h2 : s.burstUsed ≤ s.burstLimit) :
    (rlStep s now).requests.length
      ≤ (rlStep s now).requestsPerSecond + (rlStep s now).burstUsed ∧
    (rlStep s now).burstUsed ≤ (rlStep s now).burstLimit ∧
    (rlStep s now).requestsPerSecond = s.requestsPerSecond ∧
    (rlStep s now).burstLimit = s.burstLimit := by
  have hlen : (s.requests.filter (fun t => now - t < s.windowSize)).length
      ≤ s.requests.length := List.length_filter_le _ _
  unfold rlStep isAllowed
  dsimp only
  split_ifs with hb hr
  · obtain ⟨hb1, hb2⟩ := hb
    dsimp only
    refine ⟨?_, ?_, rfl, rfl⟩
    · simp only [List.length_append, List.length_singleton]
      omega
    · omega
  · dsimp only
    refine ⟨?_, h2, rfl, rfl⟩
    simp only [List.length_append, List.length_singleton]
    omega
  · dsimp only
    exact ⟨by omega, h2, rfl, rfl⟩

theorem rlFold_inv (times : List ℤ) (s : RLState)
    (h1 : s.requests.length ≤ s.requestsPerSecond + s.burstUsed)
    (h2 : s.burstUsed ≤ s.burstLimit) :
    (times.foldl rlStep s).requests.length
      ≤ (times.foldl rlStep s).requestsPerSecond + (times.foldl rlStep s).burstUsed ∧
    (times.foldl rlStep s).burstUsed ≤ (times.foldl rlStep s).burstLimit ∧
    (times.foldl rlStep s).requestsPerSecond = s.requestsPerSecond ∧
    (times.foldl rlStep s).burstLimit = s.burstLimit := by
  induction times generalizing s with
  | nil => exact ⟨h1, h2, rfl, rfl⟩
  | cons t rest ih =>
    obtain ⟨a, b, c, d⟩ := rlStep_inv s t h1 h2
    obtain ⟨x, y, z, w⟩ := ih (rlStep s t) a b
    exact ⟨x, y, z.trans c, w.trans d⟩

/-- C4 counterexample: with `requestsPerSecond = 1` and `burstLimit = 2`, two
`isAllowed` calls at the same instant both go through the burst branch and
both push their timestamp, leaving a window list of length 2 — strictly more
than the capacity 1. -/
theorem C4_counterexample :
    ¬ (([0, 0] : List ℤ).foldl rlStep (mkRateLimiter 1 1000 2)).requests.length
        ≤ (mkRateLimiter 1 1000 2).requestsPerSecond := by
  decide

/-- C4 (amended): after every sequence of `isAllowed` decisions on a fresh
`RateLimiter`, the stored timestamp list has length at most
`requestsPerSecond + burstLimit` (the capacity alone can be exceeded because
burst admissions also push timestamps; the sum bound is the invariant the
code maintains). -/
theorem C4_window_length_bound (rps : ℕ) (window : ℤ) (burst : ℕ) (times : List ℤ) :
    (times.foldl rlStep (mkRateLimiter rps window burst)).requests.length
      ≤ rps + burst := by
  obtain ⟨a, b, c, d⟩ := rlFold_inv times (mkRateLimiter rps window burst)
    (by simp [mkRateLimiter]) (by simp [mkRateLimiter])
  have e1 : (mkRateLimiter rps window burst).requestsPerSecond = rps := rfl
  have e2 : (mkRateLimiter rps window burst).burstLimit = burst := rfl
  omega

/-- C5 counterexample: a limiter with capacity 5 holding one fresh timestamp
(recorded at time 0, queried at time 0) would accept a new request — the
window holds 1 < 5 events — yet `getTimeUntilNext` returns 1000, not 0, so
"returns 0 exactly when a call would succeed" is false. -/
theorem C5_counterexample :
    (isAllowed ⟨5, 1000, 0, [0], 0⟩ 0).1 = true ∧
    getTimeUntilNext ⟨5, 1000, 0, [0], 0⟩ 0 ≠ 0 := by
  decide

/-- C5 (amended): `getTimeUntilNext` is always ≥ 0, and it returns 0 exactly
when the stored timestamp list is empty or its oldest entry has already aged
out of the window (`oldest + windowSize ≤ now`).  It is not equivalent to
`isAllowed` succeeding: the limiter can accept (free capacity or burst
credit) while `getTimeUntilNext` is still positive. -/
theorem C5_time_until_next (s : RLState) (now : ℤ) :
    0 ≤ getTimeUntilNext s now ∧
    (getTimeUntilNext s now = 0 ↔
      s.requests = [] ∨ jsMinList s.requests + s.windowSize ≤ now) := by
  unfold getTimeUntilNext
  by_cases h : s.requests = []
  · simp [h]
  · rw [if_neg h]
    refine ⟨le_max_left _ _, ?_, ?_⟩
    · intro hx
      right
      have he : jsMinList s.requests + s.windowSize - now ≤ 0 := by
        have := le_max_right (0 : ℤ) (jsMinList s.requests + s.windowSize - now)
        omega
      omega
    · intro hx
      rcases hx with hx | hx
      · exact absurd hx h
      · exact max_eq_left (by omega)

/-- C10: whenever burst credit remains (`burstUsed < burstLimit`), an
`isAllowed` call is accepted through the burst branch AND pushes its
timestamp onto the purged window list, consuming one credit — so
burst-admitted events occupy window slots and count against capacity for all
subsequent decisions within the same window. -/
theorem C10_burst_pushes_timestamp (s : RLState) (now : ℤ)
    (h : s.burstUsed < s.burstLimit) :
    (isAllowed s now).1 = true ∧
    (isAllowed s now).2.requests
      = s.requests.filter (fun t => now - t < s.windowSize) ++ [now] ∧
    (isAllowed s now).2.burstUsed = s.burstUsed + 1 := by
  have h0 : 0 < s.burstLimit := Nat.lt_of_le_of_lt (Nat.zero_le _) h
  simp [isAllowed, h, h0]

/-- Witness for C10 at a concrete limiter with burst credit available. -/
theorem C10_burst_pushes_timestamp_witness :
    (⟨5, 1000, 2, [], 0⟩ : RLState).burstUsed < (⟨5, 1000, 2, [], 0⟩ : RLState).burstLimit ∧
    ((isAllowed ⟨5, 1000, 2, [], 0⟩ 0).1 = true ∧
     (isAllowed ⟨5, 1000, 2, [], 0⟩ 0).2.requests
       = (⟨5, 1000, 2, [], 0⟩ : RLState).requests.filter
           (fun t => 0 - t < (⟨5, 1000, 2, [], 0⟩ : RLState).windowSize) ++ [0] ∧
     (isAllowed ⟨5, 1000, 2, [], 0⟩ 0).2.burstUsed
       = (⟨5, 1000, 2, [], 0⟩ : RLState).burstUsed + 1) :=
  ⟨by decide, C10_burst_pushes_timestamp ⟨5, 1000, 2, [], 0⟩ 0 (by decide)⟩

/-- C2 counterexample: when the delay is computed in the very millisecond the
channel was created (`now = startTime`, so `elapsed = 0`), the source returns
delay 0 (line 136) while the claim's three-step rule computes
`excess = bytesReleased + chunkSize = 150` and a positive delay
`150 / 1024 * 1000` ms.  State: rate 1024 B/s, no chunkDelay, no burst,
150 bytes over budget, chunk of 50 bytes. -/
theorem C2_counterexample :
    (calculateDelay ⟨1024, 0, 0, true, 100, 0, 0, 0⟩ 50 0).1 = 0 ∧
    specDelay ⟨1024, 0, 0, true, 100, 0, 0, 0⟩ 50 0 ≠ 0 := by
  constructor
  · rfl
  · norm_num [specDelay]

/-- C2 (amended): for every throttle state with non-negative burst usage
(true of every reachable state), the delay `_calculateDelay` returns equals
the claim's three-step rule amended with one guard: in the rate branch, if no
time has elapsed since the channel started (`elapsed = 0`), the delay is 0. -/
theorem C2_delay_formula (s : ThrottleState) (size now : ℤ)
    (h : 0 ≤ s.burstBytesUsed) :
    (calculateDelay s size now).1 = specDelayAmended s size now := by
  unfold calculateDelay specDelayAmended
  dsimp only
  split_ifs <;> first | rfl | omega

/-- Witness for C2 at a concrete state with burst allowance available. -/
theorem C2_delay_formula_witness :
    (0:ℤ) ≤ (⟨1024, 0, 100, true, 0, 0, 0, 0⟩ : ThrottleState).burstBytesUsed ∧
    (calculateDelay ⟨1024, 0, 100, true, 0, 0, 0, 0⟩ 10 5).1
      = specDelayAmended ⟨1024, 0, 100, true, 0, 0, 0, 0⟩ 10 5 :=
  ⟨by decide, C2_delay_formula ⟨1024, 0, 100, true, 0, 0, 0, 0⟩ 10 5 (by decide)⟩

/-- C6 counterexample: with a base rate of 10 B/s (so the claimed ceiling is
`2 × 10 = 20`) and adaptation factor `0.5`, a single high-load sample (0.9
above the threshold 0.8) sets the new rate to `max(100, 10 · 0.5) = 100`,
far above the ceiling: the hard floor 100 in the high-load branch can exceed
`2 × base` when the base rate is small. -/
theorem C6_counterexample :
    ¬ (adaptRun ⟨10, 1/2, 8/10⟩ [9/10] ≤ (⟨10, 1/2, 8/10⟩ : AdaptCfg).base * 2) := by
  norm_num [adaptRun, adaptTick]

theorem adaptTick_bounds (c : AdaptCfg) (hb : (100:ℚ) ≤ c.base) (h0 : 0 ≤ c.factor)
    (h1 : c.factor ≤ 1) (cur : ℚ) (hc1 : 100 ≤ cur) (hc2 : cur ≤ c.base * 2) (load : ℚ) :
    100 ≤ adaptTick c cur load ∧ adaptTick c cur load ≤ c.base * 2 := by
  have hcur0 : (0:ℚ) ≤ cur := by linarith
  have hmul : 0 ≤ cur * c.factor := mul_nonneg hcur0 h0
  unfold adaptTick
  split_ifs with hl1 hl2
  · exact ⟨le_max_left _ _, max_le (by linarith) (by nlinarith)⟩
  · exact ⟨le_min (by linarith) (by nlinarith), min_le_left _ _⟩
  · exact ⟨hc1, hc2⟩

theorem adaptFold_bounds (c : AdaptCfg) (hb : (100:ℚ) ≤ c.base) (h0 : 0 ≤ c.factor)
    (h1 : c.factor ≤ 1) (loads : List ℚ) (cur : ℚ) (hc1 : 100 ≤ cur)
    (hc2 : cur ≤ c.base * 2) :
    100 ≤ loads.foldl (adaptTick c) cur ∧ loads.foldl (adaptTick c) cur ≤ c.base * 2 := by
  induction loads generalizing cur with
  | nil => exact ⟨hc1, hc2⟩
  | cons l rest ih =>
    obtain ⟨a, b⟩ := adaptTick_bounds c hb h0 h1 cur hc1 hc2 l
    exact ih (adaptTick c cur l) a b

/-- C6 (amended): provided the configured base rate is at least the hard
floor 100 B/s and the adaptation factor lies in `[0, 1]`, every rate the
adaptive loop applies stays within `[100, 2 × base]`: a high-load tick sets
`max(100, current · (1 − factor))` and a low-load tick sets
`min(2 · base, current · (1 + factor))`, for any sequence of sampled loads
including adversarial oscillation.  (Without those hypotheses the bounds
fail, as the counterexample shows.) -/
theorem C6_rate_bounds (c : AdaptCfg) (hb : (100:ℚ) ≤ c.base) (h0 : 0 ≤ c.factor)
    (h1 : c.factor ≤ 1) (loads : List ℚ) :
    100 ≤ adaptRun c loads ∧ adaptRun c loads ≤ c.base * 2 :=
  adaptFold_bounds c hb h0 h1 loads c.base hb (by linarith)

/-- Witness for C6 at a concrete configuration, with a high-load and then a
low-load sample. -/
theorem C6_rate_bounds_witness :
    ((100:ℚ) ≤ (⟨1000, 1/2, 8/10⟩ : AdaptCfg).base ∧
     (0:ℚ) ≤ (⟨1000, 1/2, 8/10⟩ : AdaptCfg).factor ∧
     (⟨1000, 1/2, 8/10⟩ : AdaptCfg).factor ≤ 1) ∧
    (100 ≤ adaptRun ⟨1000, 1/2, 8/10⟩ [9/10, 1/10] ∧
     adaptRun ⟨1000, 1/2, 8/10⟩ [9/10, 1/10] ≤ (⟨1000, 1/2, 8/10⟩ : AdaptCfg).base * 2) :=
  ⟨⟨by norm_num, by norm_num, by norm_num⟩,
   C6_rate_bounds ⟨1000, 1/2, 8/10⟩ (by norm_num) (by norm_num) (by norm_num) [9/10, 1/10]⟩

theorem calcDelay_burst_step (s : ThrottleState) (size now : ℤ) (hsz : 0 ≤ size) :
    s.burstBytesUsed ≤ ((calculateDelay s size now).2).burstBytesUsed ∧
    ((calculateDelay s size now).2).burstSize = s.burstSize ∧
    (s.burstBytesUsed ≤ s.burstSize →
      ((calculateDelay s size now).2).burstBytesUsed
        ≤ ((calculateDelay s size now).2).burstSize) := by
  unfold calculateDelay
  dsimp only
  split_ifs <;>
    first
    | exact ⟨le_refl _, rfl, fun hh => hh⟩
    | exact ⟨by dsimp only; omega, rfl, fun hh => by dsimp only; omega⟩

theorem drainStep_burst (s : ThrottleState) (c : ℕ × ℤ × ℤ) :
    s.burstBytesUsed ≤ (drainStep s c).burstBytesUsed ∧
    (drainStep s c).burstSize = s.burstSize ∧
    (s.burstBytesUsed ≤ s.burstSize →
      (drainStep s c).burstBytesUsed ≤ (drainStep s c).burstSize) :=
  calcDelay_burst_step s (c.1 : ℤ) c.2.1 (Int.natCast_nonneg _)

theorem drainFold_burst (calls : List (ℕ × ℤ × ℤ)) (s : ThrottleState)
    (h : s.burstBytesUsed ≤ s.burstSize) :
    (calls.foldl drainStep s).burstBytesUsed ≤ (calls.foldl drainStep s).burstSize := by
  induction calls generalizing s with
  | nil => exact h
  | cons c rest ih => exact ih (drainStep s c) ((drainStep_burst s c).2.2 h)

/-- C9: over the whole lifetime of a channel built by the constructor, for
every sequence of drain-loop iterations (chunk sizes are naturals, hence
non-negative), `burstBytesUsed` never exceeds `burstSize`; moreover a drain
step never decreases `burstBytesUsed` and never changes `burstSize` — the
allowance is never replenished. -/
theorem C9_burst_invariant (o : ThrottleOptions) (now0 : ℤ) (calls : List (ℕ × ℤ × ℤ)) :
    (calls.foldl drainStep (mkThrottleStream o now0)).burstBytesUsed
      ≤ (calls.foldl drainStep (mkThrottleStream o now0)).burstSize ∧
    ∀ s c, s.burstBytesUsed ≤ (drainStep s c).burstBytesUsed ∧
      (drainStep s c).burstSize = s.burstSize := by
  refine ⟨drainFold_burst calls _ ?_, fun s c =>
    ⟨(drainStep_burst s c).1, (drainStep_burst s c).2.1⟩⟩
  show (0:ℤ) ≤ max 0 (jsOr o.burstSize 0)
  exact le_max_left _ _

end Throttle
